import Mathlib

set_option maxHeartbeats 1000000

/-!
Verification development for the `cho-python-sample` repository.

Numeric model: `numpy` float values are modelled as exact rationals, with
`none` standing for NaN (the Zivid SDK marks missing point-cloud data with
NaN; infinities never arise in these scripts).  Library routines whose
numerics live outside this repository (`np.linalg.svd`, `np.linalg.inv`,
`np.cos`, `np.sin`, the Zivid registration solver and voxel downsampler)
are taken as oracle parameters; everything written in the repository
itself is embedded directly.
-/

namespace ChoSample

/-- Model of a `numpy` float value: an exact rational, or `none` for NaN. -/
abbrev PyF := Option ℚ

/-- One entry of an organized `xyz` array along its last axis: a 3-coordinate point. -/
abbrev PtF := Fin 3 → PyF

/-- An organized `[height, width, 3]` point-cloud array, row by row. -/
abbrev GridF := List (List PtF)

abbrev Mat3 := Matrix (Fin 3) (Fin 3) ℚ

abbrev Mat4 := Matrix (Fin 4) (Fin 4) ℚ

/-- The all-NaN point written by a masked assignment `arr[mask] = np.nan`. -/
def nanPt : PtF := fun _ => none

/-- Embedding of `np.isnan(p).any()` along the coordinate axis of one point. -/
def isNanAny (p : PtF) : Bool := (p 0).isNone || (p 1).isNone || (p 2).isNone

/-- All three coordinates of `p` are finite (no NaN). -/
def isFiniteAll (p : PtF) : Bool := (p 0).isSome && (p 1).isSome && (p 2).isSome

/-- The rational coordinates of a point; the `getD` default is only ever exercised
on NaN coordinates, which the callers below have filtered away first. -/
def valPt (p : PtF) : Fin 3 → ℚ := fun i => (p i).getD 0

/-! ### `pose_estimation_test._plane_fit` -/

/-- Embedding of `points[~np.isnan(points).any(axis=2)]`: the boolean mask drops every point
with a NaN coordinate and flattens the organized array row-major. -/
def pointsNoNan (points : GridF) : List (Fin 3 → ℚ) :=
  ((points.flatten).filter (fun p => !isNanAny p)).map valPt

/-- Embedding of `.mean(axis=0)` of an `(n, 3)` array. -/
def meanRows (rows : List (Fin 3 → ℚ)) : Fin 3 → ℚ :=
  fun i => (rows.map (fun r => r i)).sum / rows.length

/-- The broadcast subtraction `rows - mu[np.newaxis, :]`. -/
def subRows (rows : List (Fin 3 → ℚ)) (mu : Fin 3 → ℚ) : List (Fin 3 → ℚ) :=
  rows.map (fun r => fun i => r i - mu i)

/-- Embedding of `np.dot(D.T, D)` for an `(n, 3)` array `D`: the 3x3 matrix of
column-by-column products summed over the rows. -/
def dotTT (D : List (Fin 3 → ℚ)) : Mat3 :=
  Matrix.of fun i j => (D.map (fun r => r i * r j)).sum

/-- Embedding of `_plane_fit`, with `np.linalg.svd` passed in as the external library routine
`svd M = (U, S, Vh)`; the code keeps component `[0]`. -/
def plane_fit (svd : Mat3 → Mat3 × (Fin 3 → ℚ) × Mat3) (points : GridF) :
    Mat3 × (Fin 3 → ℚ) :=
  let points_no_nan := pointsNoNan points
  let point_in_plane := meanRows points_no_nan
  let distance_to_mean_point := subRows points_no_nan point_in_plane
  let M := dotTT distance_to_mean_point
  let u := (svd M).1
  (u, point_in_plane)

/-- Stated in the words of the claim: the arithmetic mean of the points that have
no NaN coordinate. -/
def specPlaneMean (points : GridF) : Fin 3 → ℚ :=
  fun i => ((pointsNoNan points).map (fun r => r i)).sum / (pointsNoNan points).length

/-- Stated in the words of the claim: the 3x3 scatter matrix `M = D^T . D`, `D` being
the matrix of differences between each NaN-free point and the mean. -/
def specScatter (points : GridF) : Mat3 :=
  Matrix.of fun i j =>
    ((pointsNoNan points).map
      (fun r => (r i - specPlaneMean points i) * (r j - specPlaneMean points j))).sum

/-- A concrete SVD oracle used only by witnesses. -/
def svd0 : Mat3 → Mat3 × (Fin 3 → ℚ) × Mat3 := fun M => (M, fun _ => 0, M)

/-- A concrete one-point grid used only by witnesses. -/
def grid1 : GridF := [[fun _ => some 1]]

/-! ### `pose_estimation_test._get_transformation_matrix` and `_get_z_rotation_matrix` -/

/-- Embedding of `np.cross` on 3-vectors. -/
def cross3 (a b : Fin 3 → ℚ) : Fin 3 → ℚ :=
  ![a 1 * b 2 - a 2 * b 1, a 2 * b 0 - a 0 * b 2, a 0 * b 1 - a 1 * b 0]

/-- The slice assignment `m[:3, k] = v` on a 4x4 array. -/
def setCol3 (m : Mat4) (k : Fin 4) (v : Fin 3 → ℚ) : Mat4 :=
  Matrix.of fun i j => if h : i.val < 3 ∧ j = k then v ⟨i.val, h.1⟩ else m i j

/-- Embedding of `_get_transformation_matrix`: start from `np.identity(4)` and assign the
four columns in the order the code does. -/
def get_transformation_matrix (u_matrix : Mat3) (point : Fin 3 → ℚ) : Mat4 :=
  let unit_vector : Fin 3 → ℚ := fun i => u_matrix i 2
  let unit_x : Fin 3 → ℚ := ![1, 0, 0]
  let y_axis := cross3 unit_x (fun i => -unit_vector i)
  let x_axis := cross3 y_axis unit_vector
  setCol3 (setCol3 (setCol3 (setCol3 (1 : Mat4) 0 x_axis) 1 y_axis) 2 unit_vector) 3 point

/-- Embedding of `_get_z_rotation_matrix`, with `np.cos` and `np.sin` passed in as the
external library routines `c` and `s`. -/
def get_z_rotation_matrix (c s : ℚ → ℚ) (theta : ℚ) : Mat4 :=
  !![c theta, -(s theta), 0, 0;
     s theta,  c theta,   0, 0;
     0,        0,         1, 0;
     0,        0,         0, 1]

/-! ### The three point-cloud stitching scripts

`zivid.UnorganizedPointCloud` is modelled by its list of points; `extend` is
list append and `transformed` maps the affine 4x4 transform over the points.
The SDK registration solver, the voxel downsampler and `np.linalg.inv` are
oracle parameters (`reg`, `vds`, `inv`); the registration parameter
objects are baked into the `reg` oracle they pass them to. -/

/-- A point of an unorganized point cloud. -/
abbrev Pt3 := Fin 3 → ℚ

/-- Model of `zivid.UnorganizedPointCloud`, as its list of points. -/
abbrev Cloud := List Pt3

/-- Application of an affine 4x4 transform to one point. -/
def applyT (T : Mat4) (p : Pt3) : Pt3 :=
  fun i => (∑ j : Fin 3, T (Fin.castSucc i) (Fin.castSucc j) * p j) + T (Fin.castSucc i) 3

/-- Embedding of `cloud.transformed(T)` (and of the in-place `cloud.transform(T)`). -/
def transformed (c : Cloud) (T : Mat4) : Cloud := c.map (applyT T)

/-- Result of `local_point_cloud_registration`: `converged()` and `transform().to_matrix()`. -/
structure RegResult where
  converged : Bool
  transform : Mat4

/-- One stitching iteration of `stitch_via_local_point_cloud_registration_shoes.py`:
registration of the new cloud against the accumulated cloud, `assert` on
convergence (`none` models the `AssertionError` stop), extend with the
transformed new cloud, then voxel downsample with `voxel_size=1.0,
min_points_per_voxel=1`. -/
def shoesStep (reg : Cloud → Cloud → RegResult) (vds : Cloud → ℚ → ℕ → Cloud)
    (acc newc : Cloud) : Option Cloud :=
  let r := reg acc newc
  if r.converged then some (vds (acc ++ transformed newc r.transform) 1 1)
  else none

/-- The whole shoes stitching sequence: the accumulator starts as the first
cloud and every later cloud is stitched in by `shoesStep`. -/
def shoesRun (reg : Cloud → Cloud → RegResult) (vds : Cloud → ℚ → ℕ → Cloud)
    (clouds : List Cloud) : Option Cloud :=
  match clouds with
  | [] => some []
  | c0 :: rest => rest.foldlM (shoesStep reg vds) c0

/-- Embedding of `stitch_via_local_point_cloud_registration.py`: one registration of cloud 2
against cloud 1 (both voxel-downsampled with `voxel_size=1.0,
min_points_per_voxel=3` for registration only), `assert` on convergence, then
the stitched cloud is cloud 1 extended with the transformed cloud 2,
downsampled at `voxel_size=0.5, min_points_per_voxel=1`. -/
def stitchTwo (reg : Cloud → Cloud → RegResult) (vds : Cloud → ℚ → ℕ → Cloud)
    (c1 c2 : Cloud) : Option Cloud :=
  let r := reg (vds c1 1 3) (vds c2 1 3)
  if r.converged then some (vds (c1 ++ transformed c2 r.transform) (1 / 2) 1)
  else none

/-- One loop iteration of `stitch_continuously_capture_visulaize.py` after the
first capture.  The state is `(previous_to_current_point_cloud_transform,
unorganized_stitched_point_cloud)`.  `reg t s T0` is registration with
`initial_transform=T0` and `inv` is `np.linalg.inv`.  On convergence the
accumulated cloud is transformed in place by the inverse transform and extended
with the untransformed new capture; on non-convergence the body prints and
`continue`s, leaving the state unchanged. -/
def contStep (reg : Cloud → Cloud → Mat4 → RegResult) (inv : Mat4 → Mat4)
    (st : Mat4 × Cloud) (newc : Cloud) : Mat4 × Cloud :=
  let r := reg st.2 newc st.1
  if r.converged then (r.transform, transformed st.2 (inv r.transform) ++ newc)
  else st

/-- The whole continuous-capture stitching loop: the transform starts at
`np.eye(4)`, the accumulated cloud starts empty and the first capture is
extended in without registration. -/
def contRun (reg : Cloud → Cloud → Mat4 → RegResult) (inv : Mat4 → Mat4)
    (clouds : List Cloud) : Mat4 × Cloud :=
  match clouds with
  | [] => (1, [])
  | c0 :: rest => rest.foldl (contStep reg inv) (1, c0)

/-- A translation by `(1, 0, 0)`, used as a concrete registration transform. -/
def trX : Mat4 := !![1, 0, 0, 1; 0, 1, 0, 0; 0, 0, 1, 0; 0, 0, 0, 1]

/-- The inverse translation, by `(-1, 0, 0)`. -/
def trXInv : Mat4 := !![1, 0, 0, -1; 0, 1, 0, 0; 0, 0, 1, 0; 0, 0, 0, 1]

/-- A concrete registration oracle that always converges with transform `trX`. -/
def regConv : Cloud → Cloud → Mat4 → RegResult := fun _ _ _ => ⟨true, trX⟩

/-- A concrete registration oracle that never converges. -/
def regNoConv : Cloud → Cloud → Mat4 → RegResult := fun _ _ _ => ⟨false, 1⟩

/-- A concrete `np.linalg.inv` oracle, correct at `trX`. -/
def invO : Mat4 → Mat4 := fun _ => trXInv

/-- The origin point. -/
def pt0 : Pt3 := fun _ => 0

/-! ### `universal_robots_comm_test._initialize_robot_sync` and the
multi-camera calibration loop of `multicam_cal.py` -/

/-- The `RuntimeError`s `_initialize_robot_sync` raises, in source order. -/
inductive InitErr where
  | protocolMismatch
  | configureOutput
  | startSync
deriving DecidableEq

/-- Embedding of `_initialize_robot_sync`, with the boolean results of the three RTDE calls
`con.negotiate_protocol_version()`, `con.send_output_setup(...)` and
`con.send_start()` passed in (the calls themselves are library transport). -/
def initialize_robot_sync (negotiateOk sendOutputOk sendStartOk : Bool) :
    Except InitErr Unit :=
  if !negotiateOk then .error .protocolMismatch
  else if !sendOutputOk then .error .configureOutput
  else if !sendStartOk then .error .startSync
  else .ok ()

/-- The `RuntimeError` the multi-camera calibration loop raises. -/
inductive CalErr where
  | detectionFailed
deriving DecidableEq

/-- The feature-detection loop of `multicam_cal.py`: it walks the detection
validity of each consecutively loaded frame file and raises on the first
invalid one; on success it returns how many detection results were collected. -/
def collect_detections (valids : List Bool) : Except CalErr ℕ :=
  match valids with
  | [] => .ok 0
  | v :: rest =>
    if v then (collect_detections rest).map (· + 1)
    else .error .detectionFailed

/-! ### The stitching concatenation of `multicam_cal.py` -/

/-- The error Python raises when a name is read before it was ever assigned. -/
inductive PyErr where
  | nameError

/-- One iteration of the stitching branch of `multicam_cal.py` at loop index
`i`.  A missing `img_test` file (`frame = none`) skips the body; on an
existing file the first-assignment branch is keyed on the loop index `i == 0`
exactly as in the source, so when the first file is missing and a later one
exists, `np.concatenate((stitched_xyz, xyz))` reads the still-unbound
`stitched_xyz` (`st = none`) and raises `NameError`. -/
def stitchLoopStep {α : Type} (st : Option (List α)) (i : ℕ) (frame : Option (List α)) :
    Except PyErr (Option (List α)) :=
  match frame with
  | none => .ok st
  | some xyz =>
    if i = 0 then .ok (some xyz)
    else
      match st with
      | some s => .ok (some (s ++ xyz))
      | none => .error .nameError

/-- The stitching loop of `multicam_cal.py` from loop index `i` onwards, with
`st` the current binding state of `stitched_xyz` (or, identically,
`stitched_rgb`). -/
def stitchLoopAux {α : Type} (i : ℕ) (st : Option (List α)) :
    List (Option (List α)) → Except PyErr (Option (List α))
  | [] => .ok st
  | f :: rest =>
    match stitchLoopStep st i f with
    | .ok st2 => stitchLoopAux (i + 1) st2 rest
    | .error e => .error e

/-- The whole stitching loop of `multicam_cal.py` over the per-index frame
files — entry `i` of `frames` is `some` of the flattened transformed array of
`img_test_{i+1:02d}.zdf` when that file exists, `none` when it is missing.
The binding of `stitched_xyz` starts absent. -/
def stitchLoop {α : Type} (frames : List (Option (List α))) :
    Except PyErr (Option (List α)) :=
  stitchLoopAux 0 none frames

/-! ### `pose_estimation_test._create_open3d_point_cloud` -/

/-- An RGB color (already divided by 255 where the code does so). -/
abbrev ColorF := Fin 3 → ℚ

/-- An Open3D point cloud: its points with their colors. -/
structure O3DCloud where
  points : List PtF
  colors : List ColorF

/-- Embedding of `np.nan_to_num` on one point: every NaN coordinate becomes `0`, finite
coordinates are unchanged. -/
def nanToNum (p : PtF) : PtF := fun i => some ((p i).getD 0)

/-- Embedding of the Open3D call `remove_non_finite_points(remove_nan=True, remove_infinite=True)`:
drops every non-finite point together with its color. -/
def removeNonFinitePoints (c : O3DCloud) : O3DCloud :=
  let kept := (c.points.zip c.colors).filter (fun e => isFiniteAll e.1)
  ⟨kept.map Prod.fst, kept.map Prod.snd⟩

/-- Embedding of `_create_open3d_point_cloud`: flatten, `nan_to_num` the coordinates, take
the RGB channels of the RGBA image divided by 255, then remove non-finite
points. -/
def create_open3d_point_cloud (xyz : GridF) (rgba : List (List (Fin 4 → ℚ))) : O3DCloud :=
  let xyz_reshaped := (xyz.flatten).map nanToNum
  let rgb := (rgba.flatten).map (fun px => fun i : Fin 3 => px (Fin.castSucc i) / 255)
  removeNonFinitePoints ⟨xyz_reshaped, rgb⟩

/-- A point with a NaN `z` coordinate, used by the C6 counterexample. -/
def ptPartialNan : PtF := ![some 1, some 1, none]

/-- A concrete RGBA pixel. -/
def px0 : Fin 4 → ℚ := fun _ => 0

/-! ### `pose_estimation_test._roi_between_two_spheres`

`np.linalg.norm` takes a real square root, so radii live in `Option ℝ`
(`none` for NaN); the masked comparisons `radius < t` and `radius > t` are
false on NaN, as in numpy. -/

open scoped Classical

/-- The broadcast subtraction `centroid - xyz_filtered` on one point, with NaN
propagation. -/
def subPt (a b : PtF) : PtF := fun i =>
  match a i, b i with
  | some x, some y => some (x - y)
  | _, _ => none

/-- Embedding of `np.linalg.norm(..., axis=2)` on one 3-vector of differences: the
Euclidean norm, NaN whenever a coordinate is NaN. -/
noncomputable def normPt (v : PtF) : Option ℝ :=
  match v 0, v 1, v 2 with
  | some a, some b, some c =>
      some (Real.sqrt ((a : ℝ) ^ 2 + (b : ℝ) ^ 2 + (c : ℝ) ^ 2))
  | _, _, _ => none

/-- The numpy comparison `radius < t`: false when the radius is NaN. -/
def ltRad (r : Option ℝ) (t : ℚ) : Prop := ∃ x, r = some x ∧ x < (t : ℝ)

/-- The numpy comparison `radius > t`: false when the radius is NaN. -/
def gtRad (r : Option ℝ) (t : ℚ) : Prop := ∃ x, r = some x ∧ (t : ℝ) < x

/-- The boolean-mask assignment `arr[cond(radius)] = np.nan` over a grid,
pairing each point with its entry of the precomputed radius array. -/
noncomputable def maskToNan (g : GridF) (radii : List (List (Option ℝ)))
    (cond : Option ℝ → Prop) : GridF :=
  (g.zip radii).map (fun rowp =>
    (rowp.1.zip rowp.2).map (fun e => if cond e.2 then nanPt else e.1))

/-- Embedding of `_roi_between_two_spheres` at value level: copy, compute the radius array
from the copy, mask below the inner threshold, then mask above the outer
threshold (both masks from the radius array computed before any write). -/
noncomputable def roi_between_two_spheres (xyz : GridF) (centroid : PtF)
    (inner_radius_threshold outer_radius_threshold : ℚ) : GridF :=
  let xyz_filtered := xyz
  let radius := xyz_filtered.map (List.map (fun p => normPt (subPt centroid p)))
  let m1 := maskToNan xyz_filtered radius (fun r => ltRad r inner_radius_threshold)
  maskToNan m1 radius (fun r => gtRad r outer_radius_threshold)

/-- A store of organized arrays, giving array mutation an address. -/
abbrev Store := List GridF

/-- Embedding of `_roi_between_two_spheres` against an array store: the input array is
passed by address `ix`; `xyz.copy()` allocates a fresh cell at the end of the
store and both masked assignments write only to that cell, whose address is
returned with the final store.  The values read back from the cell of the copy
before each write (`xyz`, then `m1`) are bound locally. -/
noncomputable def roiH (store : Store) (ix : ℕ) (centroid : PtF)
    (innerT outerT : ℚ) : Store × ℕ :=
  let xyz := store.getD ix []
  let fidx := store.length
  let st1 := store ++ [xyz]
  let radius := xyz.map (List.map (fun p => normPt (subPt centroid p)))
  let m1 := maskToNan xyz radius (fun r => ltRad r innerT)
  let st2 := st1.set fidx m1
  let m2 := maskToNan m1 radius (fun r => gtRad r outerT)
  let st3 := st2.set fidx m2
  (st3, fidx)

/-- Stated in the words of the claim: the Euclidean distance of a point to the
centroid (meaningful when both are finite). -/
noncomputable def euclidDist (centroid p : PtF) : ℝ :=
  Real.sqrt (∑ i, ((valPt p i : ℝ) - (valPt centroid i : ℝ)) ^ 2)

/-- Stated in the words of the claim: every finite point keeps its coordinates
exactly when its Euclidean distance to the centroid is at least the inner and
at most the outer threshold (boundaries included); every other finite point
becomes NaN; points that already had a NaN coordinate are untouched. -/
noncomputable def specROI (xyz : GridF) (centroid : PtF) (innerT outerT : ℚ) : GridF :=
  xyz.map (List.map (fun p =>
    if isFiniteAll p then
      (if (innerT : ℝ) ≤ euclidDist centroid p ∧ euclidDist centroid p ≤ (outerT : ℝ)
        then p else nanPt)
    else p))

/-- A finite point at the origin, used by witnesses. -/
def ptFin : PtF := fun _ => some 0

/-! ### Purity of the numerical helpers

Each helper is also rendered as a state transformer over an arbitrary ambient
state type `σ` (module globals, files, devices — everything outside the
arguments); the bodies are the same statement sequences, none of which touches
the state. -/

/-- Embedding of `_plane_fit` threading the ambient state. -/
def plane_fitS (σ : Type) (svd : Mat3 → Mat3 × (Fin 3 → ℚ) × Mat3) (points : GridF) :
    StateM σ (Mat3 × (Fin 3 → ℚ)) := do
  let points_no_nan := pointsNoNan points
  let point_in_plane := meanRows points_no_nan
  let distance_to_mean_point := subRows points_no_nan point_in_plane
  let M := dotTT distance_to_mean_point
  let u := (svd M).1
  pure (u, point_in_plane)

/-- Embedding of `_get_transformation_matrix` threading the ambient state. -/
def get_transformation_matrixS (σ : Type) (u_matrix : Mat3) (point : Fin 3 → ℚ) :
    StateM σ Mat4 := do
  let unit_vector : Fin 3 → ℚ := fun i => u_matrix i 2
  let transform := (1 : Mat4)
  let unit_x : Fin 3 → ℚ := ![1, 0, 0]
  let y_axis := cross3 unit_x (fun i => -unit_vector i)
  let x_axis := cross3 y_axis unit_vector
  pure (setCol3 (setCol3 (setCol3 (setCol3 transform 0 x_axis) 1 y_axis) 2 unit_vector)
    3 point)

/-- Embedding of `_get_z_rotation_matrix` threading the ambient state. -/
def get_z_rotation_matrixS (σ : Type) (c s : ℚ → ℚ) (theta : ℚ) : StateM σ Mat4 := do
  let rotation := !![c theta, -(s theta), 0, 0;
                     s theta,  c theta,   0, 0;
                     0,        0,         1, 0;
                     0,        0,         0, 1]
  pure rotation

/-- Embedding of `_roi_between_two_spheres` threading the ambient state. -/
noncomputable def roi_between_two_spheresS (σ : Type) (xyz : GridF) (centroid : PtF)
    (innerT outerT : ℚ) : StateM σ GridF := do
  let xyz_filtered := xyz
  let radius := xyz_filtered.map (List.map (fun p => normPt (subPt centroid p)))
  let m1 := maskToNan xyz_filtered radius (fun r => ltRad r innerT)
  pure (maskToNan m1 radius (fun r => gtRad r outerT))

/-! ### Lemmas and the claim theorems -/

/-- Claim C1: for every input point array with at least one NaN-free point,
`_plane_fit` returns the pair of the left singular matrix `U` of the SVD of the
scatter matrix `M = D^T . D` and the arithmetic mean of the NaN-free points,
where `D` collects the differences between each NaN-free point and that mean. -/
theorem C1_plane_fit_svd_of_scatter (svd : Mat3 → Mat3 × (Fin 3 → ℚ) × Mat3)
    (points : GridF) (h : pointsNoNan points ≠ []) :
    plane_fit svd points = ((svd (specScatter points)).1, specPlaneMean points) := by
  have hM : dotTT (subRows (pointsNoNan points) (specPlaneMean points))
      = specScatter points := by
    unfold dotTT specScatter subRows
    congr 1
    funext i j
    rw [List.map_map]
    rfl
  show ((svd (dotTT (subRows (pointsNoNan points) (meanRows (pointsNoNan points))))).1,
      meanRows (pointsNoNan points)) = _
  have hmean : meanRows (pointsNoNan points) = specPlaneMean points := rfl
  rw [hmean, hM]

/-- Witness for C1 at a concrete one-point grid and a concrete SVD oracle. -/
theorem C1_plane_fit_svd_of_scatter_witness :
    pointsNoNan grid1 ≠ [] ∧
      plane_fit svd0 grid1 = ((svd0 (specScatter grid1)).1, specPlaneMean grid1) := by
  have h : pointsNoNan grid1 ≠ [] := by
    simp [pointsNoNan, isNanAny, grid1]
  exact ⟨h, C1_plane_fit_svd_of_scatter svd0 grid1 h⟩

lemma setCol3_hit (m : Mat4) (k : Fin 4) (v : Fin 3 → ℚ) (i : Fin 3) :
    setCol3 m k v (Fin.castSucc i) k = v i := by
  unfold setCol3
  rw [Matrix.of_apply, dif_pos ⟨i.isLt, rfl⟩]
  exact congrArg v (Fin.ext rfl)

lemma setCol3_miss_col (m : Mat4) (k : Fin 4) (v : Fin 3 → ℚ) (i j : Fin 4)
    (hj : j ≠ k) : setCol3 m k v i j = m i j := by
  unfold setCol3
  rw [Matrix.of_apply, dif_neg (fun hcon => hj hcon.2)]

lemma setCol3_miss_row (m : Mat4) (k : Fin 4) (v : Fin 3 → ℚ) (j : Fin 4) :
    setCol3 m k v 3 j = m 3 j := by
  unfold setCol3
  rw [Matrix.of_apply, dif_neg (fun hcon => by exact absurd hcon.1 (by decide))]

lemma gtm_col (u_matrix : Mat3) (point : Fin 3 → ℚ) (i : Fin 3) :
    (get_transformation_matrix u_matrix point (Fin.castSucc i) 0
        = cross3 (cross3 ![1, 0, 0] (fun k => -(u_matrix k 2))) (fun k => u_matrix k 2) i)
    ∧ (get_transformation_matrix u_matrix point (Fin.castSucc i) 1
        = cross3 ![1, 0, 0] (fun k => -(u_matrix k 2)) i)
    ∧ (get_transformation_matrix u_matrix point (Fin.castSucc i) 2 = u_matrix i 2)
    ∧ (get_transformation_matrix u_matrix point (Fin.castSucc i) 3 = point i) := by
  unfold get_transformation_matrix
  refine ⟨?_, ?_, ?_, ?_⟩
  · rw [setCol3_miss_col _ _ _ _ _ (by decide), setCol3_miss_col _ _ _ _ _ (by decide),
      setCol3_miss_col _ _ _ _ _ (by decide), setCol3_hit]
  · rw [setCol3_miss_col _ _ _ _ _ (by decide), setCol3_miss_col _ _ _ _ _ (by decide),
      setCol3_hit]
  · rw [setCol3_miss_col _ _ _ _ _ (by decide), setCol3_hit]
  · rw [setCol3_hit]

lemma gtm_row3 (u_matrix : Mat3) (point : Fin 3 → ℚ) (j : Fin 4) :
    get_transformation_matrix u_matrix point 3 j = if j = 3 then 1 else 0 := by
  unfold get_transformation_matrix
  rw [setCol3_miss_row, setCol3_miss_row, setCol3_miss_row, setCol3_miss_row,
    Matrix.one_apply]
  by_cases hj : j = 3
  · rw [hj]
  · rw [if_neg (fun hcon => hj hcon.symm), if_neg hj]

/-- Claim C2: `_get_transformation_matrix u point` has second column
`(1,0,0) x (-z)` for `z` the third column of `u`, first column that vector
crossed with `z`, third column `z` itself, translation column `point`, and
last row `(0,0,0,1)`. -/
theorem C2_transformation_matrix_columns (u_matrix : Mat3) (point : Fin 3 → ℚ) :
    (∀ i : Fin 3, get_transformation_matrix u_matrix point (Fin.castSucc i) 1
        = cross3 ![1, 0, 0] (fun k => -(u_matrix k 2)) i)
    ∧ (∀ i : Fin 3, get_transformation_matrix u_matrix point (Fin.castSucc i) 0
        = cross3 (cross3 ![1, 0, 0] (fun k => -(u_matrix k 2))) (fun k => u_matrix k 2) i)
    ∧ (∀ i : Fin 3, get_transformation_matrix u_matrix point (Fin.castSucc i) 2
        = u_matrix i 2)
    ∧ (∀ i : Fin 3, get_transformation_matrix u_matrix point (Fin.castSucc i) 3
        = point i)
    ∧ (get_transformation_matrix u_matrix point 3 0 = 0
        ∧ get_transformation_matrix u_matrix point 3 1 = 0
        ∧ get_transformation_matrix u_matrix point 3 2 = 0
        ∧ get_transformation_matrix u_matrix point 3 3 = 1) := by
  refine ⟨fun i => (gtm_col u_matrix point i).2.1,
    fun i => (gtm_col u_matrix point i).1,
    fun i => (gtm_col u_matrix point i).2.2.1,
    fun i => (gtm_col u_matrix point i).2.2.2, ?_, ?_, ?_, ?_⟩
  · rw [gtm_row3, if_neg (by decide)]
  · rw [gtm_row3, if_neg (by decide)]
  · rw [gtm_row3, if_neg (by decide)]
  · rw [gtm_row3, if_pos rfl]

lemma rz_col3_top (c s : ℚ → ℚ) (theta : ℚ) (i : Fin 3) :
    get_z_rotation_matrix c s theta (Fin.castSucc i) 3 = 0 := by
  fin_cases i <;> rfl

lemma rz_col3_bot (c s : ℚ → ℚ) (theta : ℚ) :
    get_z_rotation_matrix c s theta 3 3 = 1 := rfl

lemma mul_rz_col3 (A : Mat4) (c s : ℚ → ℚ) (theta : ℚ) (i : Fin 4) :
    (A * get_z_rotation_matrix c s theta) i 3 = A i 3 := by
  rw [Matrix.mul_apply, Fin.sum_univ_four]
  rw [show (0 : Fin 4) = Fin.castSucc 0 from rfl, show (1 : Fin 4) = Fin.castSucc 1 from rfl,
    show (2 : Fin 4) = Fin.castSucc 2 from rfl]
  rw [rz_col3_top, rz_col3_top, rz_col3_top, rz_col3_bot]
  ring

/-- Claim C9: for every `u_matrix`, `point` and angle, the pose
`_get_transformation_matrix(u, point) @ _get_z_rotation_matrix(theta)` has fourth
column `(point, 1)` — the translation of the picking pose is the plane point whatever
the z rotation — and, since `np.cos 0 = 1` and `np.sin 0 = 0`,
`_get_z_rotation_matrix(0)` is the 4x4 identity. -/
theorem C9_picking_pose_translation (u_matrix : Mat3) (point : Fin 3 → ℚ)
    (c s : ℚ → ℚ) (theta : ℚ) (hc : c 0 = 1) (hs : s 0 = 0) :
    (∀ i : Fin 3,
      (get_transformation_matrix u_matrix point * get_z_rotation_matrix c s theta)
        (Fin.castSucc i) 3 = point i)
    ∧ (get_transformation_matrix u_matrix point * get_z_rotation_matrix c s theta) 3 3 = 1
    ∧ get_z_rotation_matrix c s 0 = (1 : Mat4) := by
  refine ⟨?_, ?_, ?_⟩
  · intro i
    rw [mul_rz_col3]
    exact (gtm_col u_matrix point i).2.2.2
  · rw [mul_rz_col3, gtm_row3, if_pos rfl]
  · ext i j
    fin_cases i <;> fin_cases j <;>
      simp [get_z_rotation_matrix, Matrix.one_apply, hc, hs, Matrix.cons_val_zero,
        Matrix.cons_val_one, Matrix.cons_val_two, Matrix.cons_val_three, Matrix.head_cons,
        Matrix.vecHead, Matrix.vecTail]

/-- Witness for C9 at concrete cosine/sine oracles satisfying `c 0 = 1`, `s 0 = 0`. -/
theorem C9_picking_pose_translation_witness :
    ((fun _ : ℚ => (1 : ℚ)) 0 = 1 ∧ (fun _ : ℚ => (0 : ℚ)) 0 = 0)
    ∧ ((∀ i : Fin 3,
        (get_transformation_matrix 1 (fun _ => 5)
            * get_z_rotation_matrix (fun _ => 1) (fun _ => 0) 0)
          (Fin.castSucc i) 3 = (fun _ : Fin 3 => (5 : ℚ)) i)
      ∧ (get_transformation_matrix 1 (fun _ => 5)
            * get_z_rotation_matrix (fun _ => 1) (fun _ => 0) 0) 3 3 = 1
      ∧ get_z_rotation_matrix (fun _ => 1) (fun _ => 0) 0 = (1 : Mat4)) :=
  ⟨⟨rfl, rfl⟩, C9_picking_pose_translation 1 (fun _ => 5) (fun _ => 1) (fun _ => 0) 0 rfl rfl⟩

lemma applyT_trXInv_pt0 : applyT trXInv pt0 0 = -1 := by
  unfold applyT trXInv pt0
  rw [Fin.sum_univ_three]
  norm_num

/-- Counterexample to claim C3: in the continuous-capture stitching loop
(`stitch_continuously_capture_visulaize.py`), a converged iteration does not
produce the previous accumulated cloud extended with the registered new cloud
(no voxel downsampling occurs inside that loop); at this concrete input the
code instead moves the accumulated point to `x = -1`. -/
theorem C3_counterexample_continuous_loop :
    (contStep regConv invO (1, [pt0]) [pt0]).2
      ≠ [pt0] ++ transformed [pt0] (regConv [pt0] [pt0] 1).transform := by
  intro hcon
  have hstep : (contStep regConv invO (1, [pt0]) [pt0]).2
      = [applyT trXInv pt0, pt0] := rfl
  rw [hstep] at hcon
  have hhead : applyT trXInv pt0 = pt0 := by
    have := congrArg (fun l : Cloud => l.headI) hcon
    simpa [transformed] using this
  have h0 : applyT trXInv pt0 0 = pt0 0 := congrFun hhead 0
  rw [applyT_trXInv_pt0] at h0
  have hpt : pt0 0 = 0 := rfl
  rw [hpt] at h0
  norm_num at h0

/-- Claim C3 as amended: in the two file-based stitching scripts a converged
iteration extends the accumulated cloud with the new cloud brought into the
accumulated frame by the registration transform (followed by voxel
downsampling), with registration computed against the accumulated cloud; in
the continuous-capture script the accumulated cloud is instead transformed in
place by the inverse of the registration transform and extended with the
untransformed new capture, keeping the accumulation in the frame of the newest capture. -/
theorem C3_amended_stitching_accumulation
    (reg1 : Cloud → Cloud → RegResult) (vds1 : Cloud → ℚ → ℕ → Cloud) (acc newc : Cloud)
    (regT : Cloud → Cloud → RegResult) (vdsT : Cloud → ℚ → ℕ → Cloud) (c1 c2 : Cloud)
    (reg2 : Cloud → Cloud → Mat4 → RegResult) (inv : Mat4 → Mat4)
    (st : Mat4 × Cloud) (cap : Cloud)
    (h1 : (reg1 acc newc).converged = true)
    (h2 : (regT (vdsT c1 1 3) (vdsT c2 1 3)).converged = true)
    (h3 : (reg2 st.2 cap st.1).converged = true) :
    shoesStep reg1 vds1 acc newc
        = some (vds1 (acc ++ transformed newc (reg1 acc newc).transform) 1 1)
    ∧ stitchTwo regT vdsT c1 c2
        = some (vdsT (c1 ++ transformed c2 (regT (vdsT c1 1 3) (vdsT c2 1 3)).transform)
            (1 / 2) 1)
    ∧ contStep reg2 inv st cap
        = ((reg2 st.2 cap st.1).transform,
            transformed st.2 (inv (reg2 st.2 cap st.1).transform) ++ cap) := by
  refine ⟨?_, ?_, ?_⟩
  · unfold shoesStep
    rw [if_pos h1]
  · unfold stitchTwo
    rw [if_pos h2]
  · unfold contStep
    rw [if_pos h3]

/-- Witness for the amended C3 at concrete oracles and clouds. -/
theorem C3_amended_stitching_accumulation_witness :
    ((fun (_ _ : Cloud) => RegResult.mk true trX) [pt0] [pt0]).converged = true
    ∧ shoesStep (fun _ _ => ⟨true, trX⟩) (fun c _ _ => c) [pt0] [pt0]
        = some ((fun (c : Cloud) (_ : ℚ) (_ : ℕ) => c)
            ([pt0] ++ transformed [pt0]
              ((fun (_ _ : Cloud) => RegResult.mk true trX) [pt0] [pt0]).transform) 1 1) := by
  refine ⟨rfl, ?_⟩
  exact (C3_amended_stitching_accumulation (fun _ _ => ⟨true, trX⟩) (fun c _ _ => c)
    [pt0] [pt0] (fun _ _ => ⟨true, trX⟩) (fun c _ _ => c) [pt0] [pt0]
    regConv invO (1, [pt0]) [pt0] rfl rfl rfl).1

/-- Counterexample to claim C4: in the continuous-capture stitching loop a
non-converged registration does not stop the script — the capture is skipped
and the loop continues to completion (here the run over two captures, the
second of which fails to register, still returns the first cloud). -/
theorem C4_counterexample_skip_and_continue :
    (regNoConv [pt0] [applyT trX pt0] 1).converged = false
    ∧ contStep regNoConv invO (1, [pt0]) [applyT trX pt0] = (1, [pt0])
    ∧ contRun regNoConv invO [[pt0], [applyT trX pt0]] = (1, [pt0]) :=
  ⟨rfl, rfl, rfl⟩

/-- Claim C4 as amended: in the two file-based stitching scripts a
non-converged registration stops the script with an `AssertionError`; in the
continuous-capture script it is instead handled by printing and skipping the
capture, leaving the accumulated state unchanged and continuing the loop. -/
theorem C4_amended_nonconvergence_handling
    (reg1 : Cloud → Cloud → RegResult) (vds1 : Cloud → ℚ → ℕ → Cloud) (acc newc : Cloud)
    (regT : Cloud → Cloud → RegResult) (vdsT : Cloud → ℚ → ℕ → Cloud) (c1 c2 : Cloud)
    (reg2 : Cloud → Cloud → Mat4 → RegResult) (inv : Mat4 → Mat4)
    (st : Mat4 × Cloud) (cap : Cloud)
    (h1 : (reg1 acc newc).converged = false)
    (h2 : (regT (vdsT c1 1 3) (vdsT c2 1 3)).converged = false)
    (h3 : (reg2 st.2 cap st.1).converged = false) :
    shoesStep reg1 vds1 acc newc = none
    ∧ stitchTwo regT vdsT c1 c2 = none
    ∧ contStep reg2 inv st cap = st := by
  refine ⟨?_, ?_, ?_⟩
  · unfold shoesStep
    rw [if_neg (by rw [h1]; exact Bool.false_ne_true)]
  · unfold stitchTwo
    rw [if_neg (by rw [h2]; exact Bool.false_ne_true)]
  · unfold contStep
    rw [if_neg (by rw [h3]; exact Bool.false_ne_true)]

/-- Witness for the amended C4 at concrete oracles and clouds. -/
theorem C4_amended_nonconvergence_handling_witness :
    ((fun (_ _ : Cloud) => RegResult.mk false 1) [pt0] [pt0]).converged = false
    ∧ shoesStep (fun _ _ => ⟨false, 1⟩) (fun c _ _ => c) [pt0] [pt0] = none := by
  refine ⟨rfl, ?_⟩
  exact (C4_amended_nonconvergence_handling (fun _ _ => ⟨false, 1⟩) (fun c _ _ => c)
    [pt0] [pt0] (fun _ _ => ⟨false, 1⟩) (fun c _ _ => c) [pt0] [pt0]
    regNoConv invO (1, [pt0]) [pt0] rfl rfl rfl).1

/-- Claim C5: `_initialize_robot_sync` raises `RuntimeError` exactly when
protocol negotiation fails, output setup cannot be configured, or
synchronization cannot be started (each cause yielding its own error, with no
retry), and the multi-camera calibration script raises `RuntimeError` exactly
when feature-point detection on a loaded frame is not valid. -/
theorem C5_raise_on_sdk_failure (negotiateOk sendOutputOk sendStartOk : Bool)
    (valids : List Bool) :
    ((∃ e, initialize_robot_sync negotiateOk sendOutputOk sendStartOk = .error e)
      ↔ (negotiateOk = false ∨ sendOutputOk = false ∨ sendStartOk = false))
    ∧ initialize_robot_sync false sendOutputOk sendStartOk = .error .protocolMismatch
    ∧ initialize_robot_sync true false sendStartOk = .error .configureOutput
    ∧ initialize_robot_sync true true false = .error .startSync
    ∧ ((∃ e, collect_detections valids = .error e) ↔ false ∈ valids) := by
  refine ⟨?_, rfl, rfl, rfl, ?_⟩
  · cases negotiateOk <;> cases sendOutputOk <;> cases sendStartOk <;>
      simp [initialize_robot_sync]
  · induction valids with
    | nil => simp [collect_detections]
    | cons v rest ih =>
      cases v
      · have hc : collect_detections (false :: rest) = .error .detectionFailed := rfl
        rw [hc]
        exact iff_of_true ⟨CalErr.detectionFailed, rfl⟩ (List.mem_cons_self false rest)
      · cases hrec : collect_detections rest with
        | error e =>
          simp only [collect_detections, if_pos rfl, hrec, Except.map]
          simp only [hrec] at ih
          simp [← ih]
        | ok n =>
          simp only [collect_detections, if_pos rfl, hrec, Except.map]
          simp only [hrec] at ih
          simp [← ih]

lemma stitchLoopAux_some {α : Type} (rest : List (Option (List α))) (i : ℕ)
    (hi : i ≠ 0) (s : List α) :
    stitchLoopAux i (some s) rest = .ok (some (s ++ rest.reduceOption.flatten)) := by
  induction rest generalizing i s with
  | nil => simp [stitchLoopAux]
  | cons f rest ih =>
    cases f with
    | none =>
      show stitchLoopAux (i + 1) (some s) rest = _
      rw [ih (i + 1) (Nat.succ_ne_zero i) s, List.reduceOption_cons_of_none]
    | some xyz =>
      have hstep : stitchLoopStep (some s) i (some xyz) = .ok (some (s ++ xyz)) := by
        show (if i = 0 then Except.ok (some xyz) else Except.ok (some (s ++ xyz)))
          = Except.ok (some (s ++ xyz))
        rw [if_neg hi]
      show (match stitchLoopStep (some s) i (some xyz) with
        | .ok st2 => stitchLoopAux (i + 1) st2 rest
        | .error e => Except.error e) = _
      rw [hstep]
      show stitchLoopAux (i + 1) (some (s ++ xyz)) rest = _
      rw [ih (i + 1) (Nat.succ_ne_zero i) (s ++ xyz), List.reduceOption_cons_of_some,
        List.flatten_cons, List.append_assoc]

/-- Claim C8: when the first `img_test` file exists, the stitching loop
completes and the stitched array (`stitched_xyz`, and identically
`stitched_rgb`) is the pure concatenation of the processed frames — those
whose file exists — in order, its row count being the sum of their per-frame
point counts; when the first file is missing but a later one exists, the loop
instead raises `NameError` on the unbound `stitched_xyz`. -/
theorem C8_multicam_stitch_is_concatenation {α : Type} (f0 : List α)
    (rest : List (Option (List α))) :
    stitchLoop (some f0 :: rest) = .ok (some ((f0 :: rest.reduceOption).flatten))
    ∧ ((f0 :: rest.reduceOption).flatten).length
        = ((f0 :: rest.reduceOption).map List.length).sum
    ∧ stitchLoop (none :: some f0 :: rest) = .error .nameError := by
  refine ⟨?_, List.length_flatten _, ?_⟩
  · show stitchLoopAux 1 (some f0) rest = _
    rw [stitchLoopAux_some rest 1 Nat.one_ne_zero f0, List.flatten_cons]
  · rfl

/-- Counterexample to claim C6: the input point `(1, 1, NaN)` has a NaN
coordinate, yet the returned point cloud contains no point at the origin —
the point is kept as `(1, 1, 0)`, only its NaN coordinate is zeroed. -/
theorem C6_counterexample_partial_nan :
    ptPartialNan 2 = none
    ∧ ∀ q ∈ (create_open3d_point_cloud [[ptPartialNan]] [[px0]]).points,
        ¬(∀ i, q i = some 0) := by
  constructor
  · rfl
  · intro q hq
    have hpts : (create_open3d_point_cloud [[ptPartialNan]] [[px0]]).points
        = [nanToNum ptPartialNan] := rfl
    rw [hpts] at hq
    rw [List.mem_singleton] at hq
    intro hall
    have h0 := hall 0
    rw [hq] at h0
    have : nanToNum ptPartialNan 0 = some 1 := rfl
    rw [this] at h0
    exact absurd (Option.some.inj h0) (by norm_num)

/-- Claim C6 as amended: `_create_open3d_point_cloud` replaces every NaN
coordinate with `0` (via `nan_to_num`) before the non-finite-point removal
step, so points with NaN coordinates are kept rather than removed, each NaN
coordinate appearing as `0`; in particular a point whose coordinates are all
NaN appears as a point at the origin `(0,0,0)`. -/
theorem C6_amended_nan_to_num_before_removal (xyz : GridF)
    (rgba : List (List (Fin 4 → ℚ)))
    (hlen : (xyz.flatten).length = (rgba.flatten).length) :
    (create_open3d_point_cloud xyz rgba).points = (xyz.flatten).map nanToNum
    ∧ ∀ p ∈ xyz.flatten, (∀ i, p i = none) → nanToNum p = fun _ => some 0 := by
  constructor
  · unfold create_open3d_point_cloud removeNonFinitePoints
    have hkeep : (((xyz.flatten).map nanToNum).zip
          ((rgba.flatten).map (fun px => fun i : Fin 3 => px (Fin.castSucc i) / 255))).filter
          (fun e => isFiniteAll e.1)
        = ((xyz.flatten).map nanToNum).zip
            ((rgba.flatten).map (fun px => fun i : Fin 3 => px (Fin.castSucc i) / 255)) := by
      rw [List.filter_eq_self]
      intro e he
      have hfst := (List.of_mem_zip he).1
      rw [List.mem_map] at hfst
      obtain ⟨p, _, hp⟩ := hfst
      rw [← hp]
      rfl
    show ((((xyz.flatten).map nanToNum).zip
        ((rgba.flatten).map (fun px => fun i : Fin 3 => px (Fin.castSucc i) / 255))).filter
          (fun e => isFiniteAll e.1)).map Prod.fst = _
    rw [hkeep]
    exact List.map_fst_zip _ _ (by rw [List.length_map, List.length_map, hlen])
  · intro p _ hall
    funext i
    unfold nanToNum
    rw [hall i]
    rfl

/-- Witness for the amended C6 at a concrete one-pixel image. -/
theorem C6_amended_nan_to_num_before_removal_witness :
    (([[ptPartialNan]] : GridF).flatten).length = ([[px0]].flatten).length
    ∧ (create_open3d_point_cloud [[ptPartialNan]] [[px0]]).points
        = (([[ptPartialNan]] : GridF).flatten).map nanToNum := by
  have h : (([[ptPartialNan]] : GridF).flatten).length = ([[px0]].flatten).length := rfl
  exact ⟨h, (C6_amended_nan_to_num_before_removal [[ptPartialNan]] [[px0]] h).1⟩

lemma ltRad_none (t : ℚ) : ¬ ltRad none t := by
  rintro ⟨x, hx, _⟩
  exact Option.noConfusion hx

lemma gtRad_none (t : ℚ) : ¬ gtRad none t := by
  rintro ⟨x, hx, _⟩
  exact Option.noConfusion hx

lemma ltRad_some (x : ℝ) (t : ℚ) : ltRad (some x) t ↔ x < (t : ℝ) := by
  constructor
  · rintro ⟨y, hy, hlt⟩
    rwa [Option.some.inj hy]
  · intro h
    exact ⟨x, rfl, h⟩

lemma gtRad_some (x : ℝ) (t : ℚ) : gtRad (some x) t ↔ (t : ℝ) < x := by
  constructor
  · rintro ⟨y, hy, hlt⟩
    rwa [Option.some.inj hy]
  · intro h
    exact ⟨x, rfl, h⟩

lemma subPt_isSome_right (c p : PtF) (i : Fin 3) (y : ℚ) (h : subPt c p i = some y) :
    (p i).isSome = true := by
  unfold subPt at h
  cases hc : c i <;> cases hp : p i <;> rw [hc, hp] at h
  · exact Option.noConfusion h
  · exact Option.noConfusion h
  · exact Option.noConfusion h
  · rfl

lemma normPt_subPt_none (c p : PtF) (hp : isFiniteAll p = false) :
    normPt (subPt c p) = none := by
  unfold normPt
  cases h0 : subPt c p 0 with
  | none => rfl
  | some a =>
    cases h1 : subPt c p 1 with
    | none => rfl
    | some b =>
      cases h2 : subPt c p 2 with
      | none => rfl
      | some c2 =>
        exfalso
        have s0 := subPt_isSome_right c p 0 a h0
        have s1 := subPt_isSome_right c p 1 b h1
        have s2 := subPt_isSome_right c p 2 c2 h2
        unfold isFiniteAll at hp
        rw [s0, s1, s2] at hp
        exact Bool.noConfusion hp

lemma normPt_subPt_finite (c p : PtF) (hc : isFiniteAll c = true)
    (hp : isFiniteAll p = true) :
    normPt (subPt c p) = some (euclidDist c p) := by
  unfold isFiniteAll at hc hp
  rw [Bool.and_eq_true, Bool.and_eq_true] at hc hp
  obtain ⟨⟨hc0, hc1⟩, hc2⟩ := hc
  obtain ⟨⟨hp0, hp1⟩, hp2⟩ := hp
  rw [Option.isSome_iff_exists] at hc0 hc1 hc2 hp0 hp1 hp2
  obtain ⟨c0, hc0⟩ := hc0
  obtain ⟨c1, hc1⟩ := hc1
  obtain ⟨c2, hc2⟩ := hc2
  obtain ⟨p0, hp0⟩ := hp0
  obtain ⟨p1, hp1⟩ := hp1
  obtain ⟨p2, hp2⟩ := hp2
  have hs0 : subPt c p 0 = some (c0 - p0) := by
    unfold subPt
    rw [hc0, hp0]
  have hs1 : subPt c p 1 = some (c1 - p1) := by
    unfold subPt
    rw [hc1, hp1]
  have hs2 : subPt c p 2 = some (c2 - p2) := by
    unfold subPt
    rw [hc2, hp2]
  have hrad : (((c0 - p0 : ℚ) : ℝ)) ^ 2 + ((c1 - p1 : ℚ) : ℝ) ^ 2 + ((c2 - p2 : ℚ) : ℝ) ^ 2
      = (((some p0).getD 0 : ℚ) - ((some c0).getD 0 : ℚ) : ℝ) ^ 2
        + (((some p1).getD 0 : ℚ) - ((some c1).getD 0 : ℚ) : ℝ) ^ 2
        + (((some p2).getD 0 : ℚ) - ((some c2).getD 0 : ℚ) : ℝ) ^ 2 := by
    simp only [Option.getD_some]
    push_cast
    ring
  unfold normPt
  rw [hs0, hs1, hs2]
  unfold euclidDist valPt
  rw [Fin.sum_univ_three, hc0, hc1, hc2, hp0, hp1, hp2]
  exact congrArg (fun z => some (Real.sqrt z)) hrad

lemma roi_point_spec (c p : PtF) (innerT outerT : ℚ) (hc : isFiniteAll c = true) :
    (if gtRad (normPt (subPt c p)) outerT then nanPt
      else if ltRad (normPt (subPt c p)) innerT then nanPt else p)
    = (if isFiniteAll p then
        (if (innerT : ℝ) ≤ euclidDist c p ∧ euclidDist c p ≤ (outerT : ℝ)
          then p else nanPt)
      else p) := by
  cases hp : isFiniteAll p with
  | false =>
    rw [normPt_subPt_none c p hp, if_neg (gtRad_none outerT), if_neg (ltRad_none innerT)]
    rfl
  | true =>
    rw [normPt_subPt_finite c p hc hp]
    show (if gtRad (some (euclidDist c p)) outerT then nanPt
        else if ltRad (some (euclidDist c p)) innerT then nanPt else p)
      = if (innerT : ℝ) ≤ euclidDist c p ∧ euclidDist c p ≤ (outerT : ℝ) then p else nanPt
    by_cases h1 : euclidDist c p < (innerT : ℝ)
    · have hnc : ¬((innerT : ℝ) ≤ euclidDist c p ∧ euclidDist c p ≤ (outerT : ℝ)) :=
        fun hcon => absurd hcon.1 (not_le.mpr h1)
      rw [if_neg hnc]
      by_cases h2 : (outerT : ℝ) < euclidDist c p
      · rw [if_pos ((gtRad_some _ _).mpr h2)]
      · have hng : ¬ gtRad (some (euclidDist c p)) outerT :=
          fun hcon => h2 ((gtRad_some _ _).mp hcon)
        rw [if_neg hng, if_pos ((ltRad_some _ _).mpr h1)]
    · by_cases h2 : (outerT : ℝ) < euclidDist c p
      · have hnc : ¬((innerT : ℝ) ≤ euclidDist c p ∧ euclidDist c p ≤ (outerT : ℝ)) :=
          fun hcon => absurd hcon.2 (not_le.mpr h2)
        rw [if_neg hnc, if_pos ((gtRad_some _ _).mpr h2)]
      · have hng : ¬ gtRad (some (euclidDist c p)) outerT :=
          fun hcon => h2 ((gtRad_some _ _).mp hcon)
        have hnl : ¬ ltRad (some (euclidDist c p)) innerT :=
          fun hcon => h1 ((ltRad_some _ _).mp hcon)
        rw [if_neg hng, if_neg hnl, if_pos ⟨not_lt.mp h1, not_lt.mp h2⟩]

lemma zip_map_two {α β γ δ : Type} (l : List α) (f : α → β) (g : α → γ) (k : β → γ → δ) :
    ((l.map f).zip (l.map g)).map (fun e => k e.1 e.2) = l.map (fun a => k (f a) (g a)) := by
  induction l with
  | nil => rfl
  | cons a rest ih => simp only [List.map_cons, List.zip_cons_cons, ih]

lemma maskToNan_of_maps (g : GridF) (m : PtF → PtF) (rad : PtF → Option ℝ)
    (cond : Option ℝ → Prop) :
    maskToNan (g.map (List.map m)) (g.map (List.map rad)) cond
      = g.map (List.map (fun p => if cond (rad p) then nanPt else m p)) := by
  unfold maskToNan
  rw [zip_map_two g (List.map m) (List.map rad)
    (fun rm rr => (rm.zip rr).map (fun e => if cond e.2 then nanPt else e.1))]
  have hrow : (fun row : List PtF => ((row.map m).zip (row.map rad)).map
      (fun e => if cond e.2 then nanPt else e.1))
      = fun row : List PtF => row.map (fun p => if cond (rad p) then nanPt else m p) := by
    funext row
    exact zip_map_two row m rad (fun pm pr => if cond pr then nanPt else pm)
  rw [hrow]

lemma maskToNan_self (g : GridF) (rad : PtF → Option ℝ) (cond : Option ℝ → Prop) :
    maskToNan g (g.map (List.map rad)) cond
      = g.map (List.map (fun p => if cond (rad p) then nanPt else p)) := by
  have h := maskToNan_of_maps g id rad cond
  have hid : List.map (id : PtF → PtF) = id := funext (fun l => List.map_id l)
  rw [hid, List.map_id] at h
  simpa using h

lemma roi_eq_specROI (xyz : GridF) (centroid : PtF) (innerT outerT : ℚ)
    (hc : isFiniteAll centroid = true) :
    roi_between_two_spheres xyz centroid innerT outerT = specROI xyz centroid innerT outerT := by
  show maskToNan (maskToNan xyz (xyz.map (List.map (fun p => normPt (subPt centroid p))))
      (fun r => ltRad r innerT)) (xyz.map (List.map (fun p => normPt (subPt centroid p))))
      (fun r => gtRad r outerT) = _
  rw [maskToNan_self, maskToNan_of_maps]
  unfold specROI
  have hfun : (fun p : PtF => if gtRad (normPt (subPt centroid p)) outerT then nanPt
      else if ltRad (normPt (subPt centroid p)) innerT then nanPt else p)
      = fun p : PtF => if isFiniteAll p then
          (if (innerT : ℝ) ≤ euclidDist centroid p ∧ euclidDist centroid p ≤ (outerT : ℝ)
            then p else nanPt)
        else p := funext (fun p => roi_point_spec centroid p innerT outerT hc)
  rw [← hfun]

lemma getD_append_self (l : Store) (x : GridF) : (l ++ [x]).getD l.length [] = x := by
  induction l with
  | nil => rfl
  | cons a rest ih => exact ih

lemma getD_append_left (l : Store) (x : GridF) (m : ℕ) (h : m < l.length) :
    (l ++ [x]).getD m [] = l.getD m [] := by
  induction l generalizing m with
  | nil => exact absurd h (Nat.not_lt_zero m)
  | cons a rest ih =>
    cases m with
    | zero => rfl
    | succ m => exact ih m (Nat.lt_of_succ_lt_succ h)

lemma getD_set_self (l : Store) (n : ℕ) (x : GridF) (h : n < l.length) :
    (l.set n x).getD n [] = x := by
  induction l generalizing n with
  | nil => exact absurd h (Nat.not_lt_zero n)
  | cons a rest ih =>
    cases n with
    | zero => rfl
    | succ n => exact ih n (Nat.lt_of_succ_lt_succ h)

lemma getD_set_ne (l : Store) (n m : ℕ) (x : GridF) (h : n ≠ m) :
    (l.set n x).getD m [] = l.getD m [] := by
  induction l generalizing n m with
  | nil => rfl
  | cons a rest ih =>
    cases n with
    | zero =>
      cases m with
      | zero => exact absurd rfl h
      | succ m => rfl
    | succ n =>
      cases m with
      | zero => rfl
      | succ m => exact ih n m (fun hcon => h (congrArg Nat.succ hcon))

/-- Claim C10: `_roi_between_two_spheres` never writes to its input array (it
filters a freshly allocated copy), and in the returned array every finite
point keeps its coordinates exactly when its Euclidean distance to the
centroid is at least the inner and at most the outer threshold (boundaries
included), every other finite point being replaced by NaN. -/
theorem C10_roi_copy_and_filter (store : Store) (ix : ℕ) (centroid : PtF)
    (innerT outerT : ℚ) (hix : ix < store.length) (hc : isFiniteAll centroid = true) :
    ((roiH store ix centroid innerT outerT).1.getD ix [] = store.getD ix [])
    ∧ ((roiH store ix centroid innerT outerT).1.getD
          (roiH store ix centroid innerT outerT).2 []
        = specROI (store.getD ix []) centroid innerT outerT)
    ∧ roi_between_two_spheres (store.getD ix []) centroid innerT outerT
        = specROI (store.getD ix []) centroid innerT outerT := by
  have hne : store.length ≠ ix := fun hcon => absurd (hcon ▸ hix) (lt_irrefl _)
  have hfst : (roiH store ix centroid innerT outerT).1
      = ((store ++ [store.getD ix []]).set store.length
          (maskToNan (store.getD ix [])
            ((store.getD ix []).map (List.map (fun p => normPt (subPt centroid p))))
            (fun r => ltRad r innerT))).set store.length
        (maskToNan
          (maskToNan (store.getD ix [])
            ((store.getD ix []).map (List.map (fun p => normPt (subPt centroid p))))
            (fun r => ltRad r innerT))
          ((store.getD ix []).map (List.map (fun p => normPt (subPt centroid p))))
          (fun r => gtRad r outerT)) := rfl
  have hsnd : (roiH store ix centroid innerT outerT).2 = store.length := rfl
  have hlen1 : store.length
      < ((store ++ [store.getD ix []]).set store.length
          (maskToNan (store.getD ix [])
            ((store.getD ix []).map (List.map (fun p => normPt (subPt centroid p))))
            (fun r => ltRad r innerT))).length := by
    rw [List.length_set, List.length_append]
    exact Nat.lt_succ_self _
  refine ⟨?_, ?_, roi_eq_specROI _ centroid innerT outerT hc⟩
  · rw [hfst, getD_set_ne _ _ _ _ hne, getD_set_ne _ _ _ _ hne,
      getD_append_left _ _ _ hix]
  · rw [hfst, hsnd, getD_set_self _ _ _ hlen1]
    have hm2 : maskToNan
        (maskToNan (store.getD ix [])
          ((store.getD ix []).map (List.map (fun p => normPt (subPt centroid p))))
          (fun r => ltRad r innerT))
        ((store.getD ix []).map (List.map (fun p => normPt (subPt centroid p))))
        (fun r => gtRad r outerT)
        = roi_between_two_spheres (store.getD ix []) centroid innerT outerT := rfl
    rw [hm2]
    exact roi_eq_specROI _ centroid innerT outerT hc

/-- Witness for C10 at a concrete one-cell store. -/
theorem C10_roi_copy_and_filter_witness :
    (0 < ([[[ptFin]]] : Store).length ∧ isFiniteAll ptFin = true)
    ∧ ((roiH [[[ptFin]]] 0 ptFin 0 10).1.getD 0 [] = ([[[ptFin]]] : Store).getD 0 []) := by
  refine ⟨⟨by decide, by decide⟩, ?_⟩
  exact (C10_roi_copy_and_filter [[[ptFin]]] 0 ptFin 0 10 (by decide) (by decide)).1

/-- Claim C7: the four numerical helpers of the pose-estimation script are
deterministic and depend only on their arguments — run from any ambient state
they leave it unchanged and return the value of the corresponding pure
function of the arguments alone. -/
theorem C7_helpers_pure (σ : Type) (s : σ) (svd : Mat3 → Mat3 × (Fin 3 → ℚ) × Mat3)
    (points : GridF) (u_matrix : Mat3) (point : Fin 3 → ℚ) (c sn : ℚ → ℚ) (theta : ℚ)
    (xyz : GridF) (centroid : PtF) (innerT outerT : ℚ) :
    (plane_fitS σ svd points).run s = (plane_fit svd points, s)
    ∧ (get_transformation_matrixS σ u_matrix point).run s
        = (get_transformation_matrix u_matrix point, s)
    ∧ (get_z_rotation_matrixS σ c sn theta).run s = (get_z_rotation_matrix c sn theta, s)
    ∧ (roi_between_two_spheresS σ xyz centroid innerT outerT).run s
        = (roi_between_two_spheres xyz centroid innerT outerT, s) :=
  ⟨rfl, rfl, rfl, rfl⟩

end ChoSample
